import Mathlib

/-!
# Verification of the multi-task GCN model definitions (models.py)

Shallow embedding of the modules in `models.py`: `GraphConvolution`,
`Encoder`, `Discriminator`, `MultiTask`, `SingleTask`.

Modelling conventions:
* Dense real tensors become matrices over `ℚ` (exact arithmetic); the
  parameter-initialization bounds (which involve `1/sqrt`) are stated over `ℝ`.
* A matrix of shape (n, m) is `Matrix (Fin n) (Fin m) ℚ`, so shape agreement
  between chained layers is enforced by typing, mirroring the runtime shape
  checks of the tensor framework.
* `F.dropout(x, p, training)` takes its randomness from an explicit Boolean
  keep-mask oracle; with `training = false` it is the identity, with
  `training = true` it zeroes dropped entries and rescales survivors by
  `1/(1-p)`, exactly the framework's semantics.  Each dropout call site gets
  its own mask argument (independent randomness per call).
* `torch.mm` / `torch.spmm` are both matrix multiplication (sparsity is a
  storage concern, not a semantic one).
* The Python constructors perform no validation of their own; their only
  failure path is the `ZeroDivisionError` raised inside the
  `reset_parameters()` call at the end of `GraphConvolution.__init__`, where
  `stdv = 1. / math.sqrt(out_features)` divides by zero when
  `out_features = 0`.  Constructors are embedded as `Except`-valued functions
  (`.init`) carrying exactly that failure path, so "rejected at construction
  time" is a statable property; the sampled random initial parameter values
  are passed in as oracle arguments.
-/

/-- Dense (n, m) matrix of rationals; the embedding of a 2-D tensor. -/
abbrev Mat (n m : ℕ) : Type := Matrix (Fin n) (Fin m) ℚ

/-- Row-broadcast of a vector `b` of length m to an (n, m) matrix:
the embedding of `output + self.bias` broadcasting over rows. -/
def bcast {n m : ℕ} (b : Fin m → ℚ) : Mat n m :=
  Matrix.of fun _ j => b j

/-- Elementwise ReLU, the embedding of `F.relu`. -/
def relu {n m : ℕ} (x : Mat n m) : Mat n m :=
  Matrix.of fun i j => max (x i j) 0

/-- Embedding of `F.dropout(x, p, training)`.  `mask i j = true` means the
entry is kept.  In inference mode (`training = false`) it is the identity;
in training mode kept entries are rescaled by `1/(1-p)` and dropped entries
become 0. -/
def dropoutF {n m : ℕ} (p : ℚ) (training : Bool)
    (mask : Fin n → Fin m → Bool) (x : Mat n m) : Mat n m :=
  match training with
  | false => x
  | true => Matrix.of fun i j => if mask i j then x i j / (1 - p) else 0

/-- Embedding of `GraphConvolution` (models.py lines 8-41): a weight matrix of
shape (in_features, out_features) and an optional bias vector of length
out_features (`self.register_parameter('bias', None)` when `bias=False`). -/
structure GraphConvolution (in_features out_features : ℕ) where
  weight : Mat in_features out_features
  bias : Option (Fin out_features → ℚ)

/-- Embedding of `GraphConvolution.forward` (lines 30-36):
`support = torch.mm(input, self.weight)`, `output = torch.spmm(adj, support)`,
then `output + self.bias` if bias is present, else `output`. -/
def GraphConvolution.forward {n f g : ℕ} (gc : GraphConvolution f g)
    (input : Mat n f) (adj : Mat n n) : Mat n g :=
  let support := input * gc.weight
  let output := adj * support
  match gc.bias with
  | some b => output + bcast b
  | none => output

/-- Embedding of `GraphConvolution.__init__` (lines 13-22), including the
`reset_parameters()` call it ends with (line 22).  The constructor performs no
validation of its own, but `reset_parameters` computes
`stdv = 1. / math.sqrt(self.weight.size(1))` (line 25), which raises
`ZeroDivisionError` when `out_features = 0` (`math.sqrt(0) = 0.0`); for every
other `out_features`, and for every `in_features` (including 0), construction
succeeds.  The values `reset_parameters` writes into the weight (and the
bias, when `useBias = true`) are supplied as oracle arguments `w`, `bs`. -/
def GraphConvolution.init {f g : ℕ} (w : Mat f g) (bs : Fin g → ℚ)
    (useBias : Bool) : Except String (GraphConvolution f g) :=
  if g = 0 then .error "ZeroDivisionError"
  else .ok { weight := w, bias := if useBias then some bs else none }

/-- Embedding of `Encoder` (lines 44-50): two `GraphConvolution` layers,
`gc1 : nfeat → nhid` and `gc2 : nhid → nhid`, both with `bias=True`, and a
stored dropout probability. -/
structure Encoder (nfeat nhid : ℕ) where
  gc1 : GraphConvolution nfeat nhid
  gc2 : GraphConvolution nhid nhid
  dropout : ℚ

/-- Embedding of `Encoder.forward` (lines 52-57):
dropout → gc1 → ReLU → dropout → gc2, returned with no further nonlinearity.
`m1`, `m2` are the keep-masks of the two dropout calls. -/
def Encoder.forward {n nfeat nhid : ℕ} (e : Encoder nfeat nhid)
    (training : Bool) (m1 : Fin n → Fin nfeat → Bool)
    (m2 : Fin n → Fin nhid → Bool) (x : Mat n nfeat) (adj : Mat n n) :
    Mat n nhid :=
  let x1 := dropoutF e.dropout training m1 x
  let x2 := relu (e.gc1.forward x1 adj)
  let x3 := dropoutF e.dropout training m2 x2
  e.gc2.forward x3 adj

/-- Embedding of `Encoder.__init__` (lines 45-50): constructs the two graph
convolutions (bias enabled, out_features = nhid for both) and stores the
dropout rate, with no validation of `dropout` or of the dimensions; the
`ZeroDivisionError` that `GraphConvolution.__init__` raises when `nhid = 0`
propagates out of the constructor.  Sampled initial parameters are oracle
arguments. -/
def Encoder.init {nfeat nhid : ℕ} (w1 : Mat nfeat nhid) (b1 : Fin nhid → ℚ)
    (w2 : Mat nhid nhid) (b2 : Fin nhid → ℚ) (dropout : ℚ) :
    Except String (Encoder nfeat nhid) := do
  let g1 ← GraphConvolution.init w1 b1 true
  let g2 ← GraphConvolution.init w2 b2 true
  return { gc1 := g1, gc2 := g2, dropout := dropout }

/-- Embedding of `nn.Linear(nin, nout)`: weight of shape (nout, nin), bias of
length nout, computing `y = x · Wᵀ + b`. -/
structure Linear (nin nout : ℕ) where
  weight : Mat nout nin
  bias : Fin nout → ℚ

/-- The affine map of `nn.Linear`: `x * Wᵀ` plus the row-broadcast bias. -/
def Linear.forward {n nin nout : ℕ} (l : Linear nin nout) (x : Mat n nin) :
    Mat n nout :=
  x * l.weight.transpose + bcast l.bias

/-- The hidden width `nin // 2` computed in `Discriminator.__init__`
(line 64): Python floor division of a nonnegative dimension. -/
def discHidden (nin : ℕ) : ℕ := nin / 2

/-- Embedding of `Discriminator` (lines 60-66): `lr1 : nin → nin // 2`,
`lr2 : nin // 2 → nout`, plus the stored dropout probability. -/
structure Discriminator (nin nout : ℕ) where
  lr1 : Linear nin (discHidden nin)
  lr2 : Linear (discHidden nin) nout
  dropout : ℚ

/-- Embedding of `Discriminator.forward` (lines 68-74):
ReLU → dropout → lr1 → ReLU → dropout → lr2.  `m1`, `m2` are the keep-masks
of the two dropout calls. -/
def Discriminator.forward {n nin nout : ℕ} (d : Discriminator nin nout)
    (training : Bool) (m1 : Fin n → Fin nin → Bool)
    (m2 : Fin n → Fin (discHidden nin) → Bool) (x : Mat n nin) :
    Mat n nout :=
  let x1 := relu x
  let x2 := dropoutF d.dropout training m1 x1
  let x3 := relu (d.lr1.forward x2)
  let x4 := dropoutF d.dropout training m2 x3
  d.lr2.forward x4

/-- Embedding of `Discriminator.__init__` (lines 61-66): stores the two linear
layers (whose initial parameters come from the framework's default `nn.Linear`
initialization, passed in as oracle arguments) and the dropout rate, with no
validation of `dropout`, `nin` or `nout`. -/
def Discriminator.init {nin nout : ℕ} (l1 : Linear nin (discHidden nin))
    (l2 : Linear (discHidden nin) nout) (dropout : ℚ) :
    Except String (Discriminator nin nout) :=
  .ok { lr1 := l1, lr2 := l2, dropout := dropout }

/-- Embedding of `MultiTask` (lines 77-83): one shared `Encoder`, a neighbor
head `dis_neighbor : nhid → nout` and an anomaly head `dis_anomlay : nhid → 2`
(the source's spelling), each with its own parameters. -/
structure MultiTask (nfeat nhid nout : ℕ) where
  encoder : Encoder nfeat nhid
  dis_neighbor : Discriminator nhid nout
  dis_anomlay : Discriminator nhid 2

/-- Embedding of `MultiTask.forward` (lines 85-91): computes the shared
embedding once and feeds the very same embedding to both heads, returning
`(x, pred_nc, pred_ad)`.  `me1, me2, mn1, mn2, ma1, ma2` are the keep-masks of
the six dropout call sites (encoder, neighbor head, anomaly head). -/
def MultiTask.forward {n nfeat nhid nout : ℕ} (mt : MultiTask nfeat nhid nout)
    (training : Bool)
    (me1 : Fin n → Fin nfeat → Bool) (me2 : Fin n → Fin nhid → Bool)
    (mn1 : Fin n → Fin nhid → Bool) (mn2 : Fin n → Fin (discHidden nhid) → Bool)
    (ma1 : Fin n → Fin nhid → Bool) (ma2 : Fin n → Fin (discHidden nhid) → Bool)
    (x : Mat n nfeat) (adj : Mat n n) :
    Mat n nhid × Mat n nout × Mat n 2 :=
  let h := mt.encoder.forward training me1 me2 x adj
  let pred_nc := mt.dis_neighbor.forward training mn1 mn2 h
  let pred_ad := mt.dis_anomlay.forward training ma1 ma2 h
  (h, pred_nc, pred_ad)

/-- Embedding of `SingleTask` (lines 94-99): one `Encoder` and one
`Discriminator` head. -/
structure SingleTask (nfeat nhid nout : ℕ) where
  encoder : Encoder nfeat nhid
  discriminator : Discriminator nhid nout

/-- Embedding of `SingleTask.forward` (lines 101-105). -/
def SingleTask.forward {n nfeat nhid nout : ℕ} (st : SingleTask nfeat nhid nout)
    (training : Bool)
    (me1 : Fin n → Fin nfeat → Bool) (me2 : Fin n → Fin nhid → Bool)
    (md1 : Fin n → Fin nhid → Bool) (md2 : Fin n → Fin (discHidden nhid) → Bool)
    (x : Mat n nfeat) (adj : Mat n n) :
    Mat n nhid × Mat n nout :=
  let h := st.encoder.forward training me1 me2 x adj
  let pred := st.discriminator.forward training md1 md2 h
  (h, pred)

/-- State-passing reading of `GraphConvolution.forward` (lines 30-36): the
body only reads `self.weight` and `self.bias` and assigns no attribute of
`self`, so the module value after the call is the module value before it.
The pair (output, post-state) makes that frame condition statable. -/
def GraphConvolution.forwardS {n f g : ℕ} (gc : GraphConvolution f g)
    (input : Mat n f) (adj : Mat n n) : Mat n g × GraphConvolution f g :=
  (gc.forward input adj, gc)

/-- State-passing reading of `Encoder.forward` (lines 52-57): the body reads
`self.dropout`, `self.training` and calls its submodules' forwards, which
themselves assign nothing; post-state = pre-state. -/
def Encoder.forwardS {n nfeat nhid : ℕ} (e : Encoder nfeat nhid)
    (training : Bool) (m1 : Fin n → Fin nfeat → Bool)
    (m2 : Fin n → Fin nhid → Bool) (x : Mat n nfeat) (adj : Mat n n) :
    Mat n nhid × Encoder nfeat nhid :=
  (e.forward training m1 m2 x adj, e)

/-- State-passing reading of `Discriminator.forward` (lines 68-74):
no attribute of `self` is assigned; post-state = pre-state. -/
def Discriminator.forwardS {n nin nout : ℕ} (d : Discriminator nin nout)
    (training : Bool) (m1 : Fin n → Fin nin → Bool)
    (m2 : Fin n → Fin (discHidden nin) → Bool) (x : Mat n nin) :
    Mat n nout × Discriminator nin nout :=
  (d.forward training m1 m2 x, d)

/-- State-passing reading of `MultiTask.forward` (lines 85-91):
no attribute of `self` is assigned; post-state = pre-state. -/
def MultiTask.forwardS {n nfeat nhid nout : ℕ} (mt : MultiTask nfeat nhid nout)
    (training : Bool)
    (me1 : Fin n → Fin nfeat → Bool) (me2 : Fin n → Fin nhid → Bool)
    (mn1 : Fin n → Fin nhid → Bool) (mn2 : Fin n → Fin (discHidden nhid) → Bool)
    (ma1 : Fin n → Fin nhid → Bool) (ma2 : Fin n → Fin (discHidden nhid) → Bool)
    (x : Mat n nfeat) (adj : Mat n n) :
    (Mat n nhid × Mat n nout × Mat n 2) × MultiTask nfeat nhid nout :=
  (mt.forward training me1 me2 mn1 mn2 ma1 ma2 x adj, mt)

/-- State-passing reading of `SingleTask.forward` (lines 101-105):
no attribute of `self` is assigned; post-state = pre-state. -/
def SingleTask.forwardS {n nfeat nhid nout : ℕ} (st : SingleTask nfeat nhid nout)
    (training : Bool)
    (me1 : Fin n → Fin nfeat → Bool) (me2 : Fin n → Fin nhid → Bool)
    (md1 : Fin n → Fin nhid → Bool) (md2 : Fin n → Fin (discHidden nhid) → Bool)
    (x : Mat n nfeat) (adj : Mat n n) :
    (Mat n nhid × Mat n nout) × SingleTask nfeat nhid nout :=
  (st.forward training me1 me2 md1 md2 x adj, st)

/-- The permutation matrix of `σ`: entry (i, j) is 1 exactly when `σ j = i`,
so `permMat σ * x` reorders the rows of `x` by `σ` and
`permMat σ * adj * (permMat σ)ᵀ` renames the nodes of `adj` by `σ`. -/
def permMat {n : ℕ} (σ : Equiv.Perm (Fin n)) : Mat n n :=
  Matrix.of fun i j => if σ j = i then 1 else 0

/-- A single draw of `tensor.uniform_(lo, hi)`: the affine image
`lo + (hi - lo) * u` of a unit sample `u ∈ [0, 1]` supplied by the
framework's random number generator. -/
noncomputable def uniformSample (lo hi u : ℝ) : ℝ :=
  lo + (hi - lo) * u

/-- `stdv = 1. / math.sqrt(self.weight.size(1))` (line 25);
`weight.size(1)` is `out_features`. -/
noncomputable def gcStdv (out_features : ℕ) : ℝ :=
  1 / Real.sqrt out_features

/-- Embedding of `self.weight.data.uniform_(-stdv, stdv)` in
`reset_parameters` (line 26): every weight entry is its own draw from the
uniform distribution on [-stdv, stdv], with one independent unit sample
`u i j` per entry. -/
noncomputable def GraphConvolution.resetWeight (f g : ℕ) (u : Fin f → Fin g → ℝ) :
    Matrix (Fin f) (Fin g) ℝ :=
  Matrix.of fun i j => uniformSample (-(gcStdv g)) (gcStdv g) (u i j)

/-- Embedding of `self.bias.data.uniform_(-stdv, stdv)` in `reset_parameters`
(line 28): every bias entry is its own draw from the uniform distribution on
[-stdv, stdv], with one independent unit sample `u j` per entry. -/
noncomputable def GraphConvolution.resetBias (g : ℕ) (u : Fin g → ℝ) : Fin g → ℝ :=
  fun j => uniformSample (-(gcStdv g)) (gcStdv g) (u j)

/-! ## Helper lemmas -/

/-- With `training = false`, dropout is the identity, whatever the mask. -/
theorem dropoutF_inference {n m : ℕ} (p : ℚ) (mask : Fin n → Fin m → Bool)
    (x : Mat n m) : dropoutF p false mask x = x :=
  rfl

/-- Left multiplication by `permMat σ` reindexes rows by `σ⁻¹`. -/
theorem permMat_mul {n m : ℕ} (σ : Equiv.Perm (Fin n)) (M : Mat n m) :
    permMat σ * M = Matrix.of fun i j => M (σ⁻¹ i) j := by
  ext i j
  rw [Matrix.mul_apply]
  have step : ∀ k : Fin n, permMat σ i k * M k j =
      if k = σ⁻¹ i then M k j else 0 := by
    intro k
    by_cases h : k = σ⁻¹ i
    · subst h
      simp [permMat, Equiv.Perm.apply_inv_self]
    · have h2 : σ k ≠ i := by
        intro hσ
        exact h (by rw [← hσ, Equiv.Perm.inv_apply_self])
      simp [permMat, h2, h]
  simp only [step]
  rw [Finset.sum_ite_eq' Finset.univ (σ⁻¹ i) fun k => M k j]
  simp

/-- Transposing a permutation matrix inverts the permutation. -/
theorem permMat_transpose {n : ℕ} (σ : Equiv.Perm (Fin n)) :
    (permMat σ).transpose = permMat σ⁻¹ := by
  ext i j
  simp only [Matrix.transpose_apply, permMat, Matrix.of_apply]
  by_cases h : σ i = j
  · subst h
    simp
  · have h2 : σ⁻¹ j ≠ i := by
      intro hh
      exact h (by rw [← hh, Equiv.Perm.apply_inv_self])
    simp [h, h2]

/-- Permutation matrices are orthogonal: `Pᵀ * P = 1`. -/
theorem permMat_transpose_mul_self {n : ℕ} (σ : Equiv.Perm (Fin n)) :
    (permMat σ).transpose * permMat σ = 1 := by
  rw [permMat_transpose, permMat_mul]
  ext i j
  simp only [Matrix.of_apply, permMat, Matrix.one_apply, inv_inv,
    Equiv.apply_eq_iff_eq]
  by_cases h : i = j
  · simp [h]
  · have h2 : j ≠ i := fun hh => h hh.symm
    simp [h, h2]

/-- Row permutation leaves a row-broadcast matrix unchanged. -/
theorem permMat_mul_bcast {n m : ℕ} (σ : Equiv.Perm (Fin n)) (b : Fin m → ℚ) :
    permMat σ * bcast b = bcast b := by
  rw [permMat_mul]
  ext i j
  simp [bcast]

/-- Elementwise ReLU commutes with row permutation. -/
theorem relu_permMat {n m : ℕ} (σ : Equiv.Perm (Fin n)) (M : Mat n m) :
    relu (permMat σ * M) = permMat σ * relu M := by
  rw [permMat_mul, permMat_mul]
  ext i j
  simp [relu]

/-- A single graph convolution is permutation-equivariant:
renaming the nodes of the input features and of the adjacency operator by `σ`
renames the rows of the output by `σ`. -/
theorem gc_forward_permMat {n f g : ℕ} (σ : Equiv.Perm (Fin n))
    (gc : GraphConvolution f g) (x : Mat n f) (adj : Mat n n) :
    gc.forward (permMat σ * x) (permMat σ * adj * (permMat σ).transpose) =
      permMat σ * gc.forward x adj := by
  have key : permMat σ * adj * (permMat σ).transpose * (permMat σ * x * gc.weight)
      = permMat σ * (adj * (x * gc.weight)) := by
    rw [Matrix.mul_assoc (permMat σ) x gc.weight,
      Matrix.mul_assoc (permMat σ * adj) (permMat σ).transpose
        (permMat σ * (x * gc.weight)),
      ← Matrix.mul_assoc (permMat σ).transpose (permMat σ) (x * gc.weight),
      permMat_transpose_mul_self, Matrix.one_mul, Matrix.mul_assoc]
  cases hb : gc.bias with
  | none =>
    simp only [GraphConvolution.forward, hb]
    exact key
  | some b =>
    simp only [GraphConvolution.forward, hb]
    rw [key, Matrix.mul_add, permMat_mul_bcast]

/-! ## Claim theorems -/

/-- C1: for every input matrix X (n × f) and adjacency operator A (n × n),
`GraphConvolution.forward` returns `A * (X * W) + b` with the bias broadcast
over rows when the layer holds a bias, and exactly `A * (X * W)` with no
additive term when constructed with `bias=False`. -/
theorem graphConvolution_forward_spec {n f g : ℕ} (w : Mat f g)
    (b : Fin g → ℚ) (X : Mat n f) (A : Mat n n) :
    (GraphConvolution.mk w (some b)).forward X A = A * (X * w) + bcast b ∧
    (GraphConvolution.mk w none).forward X A = A * (X * w) :=
  ⟨rfl, rfl⟩

/-- C2: `Encoder.forward` computes exactly
dropout(X) → gc1 (nfeat→nhid) → ReLU → dropout → gc2 (nhid→nhid), in that
order, with no nonlinearity after the second graph convolution; the result
type `Mat n nhid` shows the output width is `nhid` for every input. -/
theorem encoder_forward_pipeline {n nfeat nhid : ℕ} (e : Encoder nfeat nhid)
    (training : Bool) (m1 : Fin n → Fin nfeat → Bool)
    (m2 : Fin n → Fin nhid → Bool) (x : Mat n nfeat) (adj : Mat n n) :
    e.forward training m1 m2 x adj =
      e.gc2.forward
        (dropoutF e.dropout training m2
          (relu (e.gc1.forward (dropoutF e.dropout training m1 x) adj)))
        adj :=
  rfl

/-- C3: `Discriminator.forward` computes exactly
ReLU(X) → dropout → lr1 (nin → nin//2) → ReLU → dropout → lr2 (nin//2 → nout),
where the hidden width is the floor division `nin / 2`, also when `nin` is
odd (`discHidden (2k+1) = k`). -/
theorem discriminator_forward_pipeline {n nin nout : ℕ}
    (d : Discriminator nin nout) (training : Bool)
    (m1 : Fin n → Fin nin → Bool) (m2 : Fin n → Fin (discHidden nin) → Bool)
    (x : Mat n nin) :
    d.forward training m1 m2 x =
      d.lr2.forward
        (dropoutF d.dropout training m2
          (relu (d.lr1.forward (dropoutF d.dropout training m1 (relu x))))) ∧
    discHidden nin = nin / 2 ∧
    (∀ k : ℕ, discHidden (2 * k + 1) = k) :=
  ⟨rfl, rfl, fun k => by unfold discHidden; omega⟩

/-- C4: `MultiTask.forward` returns the triple (H, neighbor-logits,
anomaly-logits) where H is the encoder output and both heads are applied to
that same H; the neighbor head has type nhid → nout, the anomaly head has
type nhid → 2, and the two heads are independent fields, so any pair of
discriminators can be installed with no parameter shared between them. -/
theorem multiTask_forward_spec {n nfeat nhid nout : ℕ}
    (mt : MultiTask nfeat nhid nout) (training : Bool)
    (me1 : Fin n → Fin nfeat → Bool) (me2 : Fin n → Fin nhid → Bool)
    (mn1 : Fin n → Fin nhid → Bool) (mn2 : Fin n → Fin (discHidden nhid) → Bool)
    (ma1 : Fin n → Fin nhid → Bool) (ma2 : Fin n → Fin (discHidden nhid) → Bool)
    (x : Mat n nfeat) (adj : Mat n n) :
    mt.forward training me1 me2 mn1 mn2 ma1 ma2 x adj =
      (mt.encoder.forward training me1 me2 x adj,
       mt.dis_neighbor.forward training mn1 mn2
         (mt.encoder.forward training me1 me2 x adj),
       mt.dis_anomlay.forward training ma1 ma2
         (mt.encoder.forward training me1 me2 x adj)) ∧
    (∀ (e : Encoder nfeat nhid) (d1 : Discriminator nhid nout)
        (d2 : Discriminator nhid 2),
      (MultiTask.mk e d1 d2).encoder = e ∧
      (MultiTask.mk e d1 d2).dis_neighbor = d1 ∧
      (MultiTask.mk e d1 d2).dis_anomlay = d2) :=
  ⟨rfl, fun _ _ _ => ⟨rfl, rfl, rfl⟩⟩

/-- C6: in inference mode (`training = false`, dropout a no-op), two forward
calls of Encoder, Discriminator, MultiTask and SingleTask on the same input
and parameters agree even when the dropout randomness (the keep-masks, the
only run-to-run varying quantity) differs between the two runs. -/
theorem inference_mode_deterministic {n nfeat nhid nout nin mout : ℕ}
    (e : Encoder nfeat nhid) (d : Discriminator nin mout)
    (mt : MultiTask nfeat nhid nout) (st : SingleTask nfeat nhid nout)
    (x : Mat n nfeat) (adj : Mat n n) (y : Mat n nin)
    (a1 a1' : Fin n → Fin nfeat → Bool) (a2 a2' : Fin n → Fin nhid → Bool)
    (b1 b1' : Fin n → Fin nin → Bool)
    (b2 b2' : Fin n → Fin (discHidden nin) → Bool)
    (c1 c1' d1 d1' : Fin n → Fin nhid → Bool)
    (c2 c2' e2 e2' : Fin n → Fin (discHidden nhid) → Bool) :
    e.forward false a1 a2 x adj = e.forward false a1' a2' x adj ∧
    d.forward false b1 b2 y = d.forward false b1' b2' y ∧
    mt.forward false a1 a2 c1 c2 d1 e2 x adj =
      mt.forward false a1' a2' c1' c2' d1' e2' x adj ∧
    st.forward false a1 a2 c1 c2 x adj =
      st.forward false a1' a2' c1' c2' x adj :=
  ⟨rfl, rfl, rfl, rfl⟩

/-- C9: no forward pass mutates any parameter: read as state-passing
functions, the forwards of all five modules return the module unchanged
alongside the output, and the output is the plain forward result. -/
theorem forward_mutates_no_parameter {n nfeat nhid nout nin mout f g : ℕ}
    (gc : GraphConvolution f g) (e : Encoder nfeat nhid)
    (d : Discriminator nin mout) (mt : MultiTask nfeat nhid nout)
    (st : SingleTask nfeat nhid nout)
    (inp : Mat n f) (x : Mat n nfeat) (adj : Mat n n) (y : Mat n nin)
    (training : Bool)
    (a1 : Fin n → Fin nfeat → Bool) (a2 : Fin n → Fin nhid → Bool)
    (b1 : Fin n → Fin nin → Bool) (b2 : Fin n → Fin (discHidden nin) → Bool)
    (c1 d1 : Fin n → Fin nhid → Bool)
    (c2 e2 : Fin n → Fin (discHidden nhid) → Bool) :
    (gc.forwardS inp adj).2 = gc ∧
    (gc.forwardS inp adj).1 = gc.forward inp adj ∧
    (e.forwardS training a1 a2 x adj).2 = e ∧
    (d.forwardS training b1 b2 y).2 = d ∧
    (mt.forwardS training a1 a2 c1 c2 d1 e2 x adj).2 = mt ∧
    (st.forwardS training a1 a2 c1 c2 x adj).2 = st :=
  ⟨rfl, rfl, rfl, rfl, rfl, rfl⟩

/-- C5 counterexample: 3/2 is an invalid dropout probability (not < 1), yet
`Encoder.init` with dropout 3/2 succeeds, returning the fully built module —
construction does not reject it. -/
theorem construction_accepts_invalid_dropout :
    ¬ ((3 / 2 : ℚ) < 1) ∧
    @Encoder.init 1 1 0 0 0 0 (3 / 2) =
      .ok { gc1 := { weight := 0, bias := some 0 },
            gc2 := { weight := 0, bias := some 0 }, dropout := 3 / 2 } :=
  ⟨by norm_num, rfl⟩

/-- C5 amended: no constructor performs a configuration check: every dropout
probability, also invalid ones, is accepted by all three constructors and
stored as given, a zero `in_features` is accepted, and `Discriminator`
construction always succeeds for every `nin`, `nout`.  The only
construction-time failure is `out_features = 0` (for `Encoder`, `nhid = 0`),
which fails via the incidental `ZeroDivisionError` of
`stdv = 1. / math.sqrt(out_features)` in `reset_parameters`, not via a
ConfigurationError-style rejection. -/
theorem construction_no_validation {f g nfeat nhid nin nout : ℕ}
    (hg : g ≠ 0) (hh : nhid ≠ 0)
    (w : Mat f g) (bs : Fin g → ℚ) (useBias : Bool)
    (w1 : Mat nfeat nhid) (b1 : Fin nhid → ℚ)
    (w2 : Mat nhid nhid) (b2 : Fin nhid → ℚ)
    (l1 : Linear nin (discHidden nin)) (l2 : Linear (discHidden nin) nout)
    (q r : ℚ) (w0 : Mat f 0) (bs0 : Fin 0 → ℚ)
    (v1 : Mat nfeat 0) (c1 : Fin 0 → ℚ) (v2 : Mat 0 0) (c2 : Fin 0 → ℚ) :
    GraphConvolution.init w bs useBias =
      .ok { weight := w, bias := if useBias then some bs else none } ∧
    Encoder.init w1 b1 w2 b2 q =
      .ok { gc1 := { weight := w1, bias := some b1 },
            gc2 := { weight := w2, bias := some b2 }, dropout := q } ∧
    Discriminator.init l1 l2 r = .ok { lr1 := l1, lr2 := l2, dropout := r } ∧
    GraphConvolution.init w0 bs0 useBias = .error "ZeroDivisionError" ∧
    Encoder.init v1 c1 v2 c2 q = .error "ZeroDivisionError" := by
  refine ⟨?_, ?_, rfl, rfl, rfl⟩
  · unfold GraphConvolution.init
    rw [if_neg hg]
  · unfold Encoder.init GraphConvolution.init
    rw [if_neg hh, if_neg hh]
    rfl

/-- Witness for C5 amended at f = g = nfeat = nhid = nin = nout = 1 with
dropout 3/2: the nonzero-dimension hypotheses hold and the graph-convolution
constructor succeeds, storing the sampled parameters. -/
theorem construction_no_validation_witness :
    ((1 : ℕ) ≠ 0) ∧
    @GraphConvolution.init 1 1 0 0 true =
      .ok { weight := 0, bias := some 0 } :=
  ⟨by decide,
   (@construction_no_validation 1 1 1 1 1 1 (by decide) (by decide)
     0 0 true 0 0 0 0 ⟨0, 0⟩ ⟨0, 0⟩ (3 / 2) 1 0 0 0 0 0 0).1⟩

/-- C7: in inference mode the Encoder is permutation-equivariant: for every
permutation matrix `permMat σ`, applying the encoder to the row-permuted
features and the conjugated adjacency `P * A * Pᵀ` permutes the rows of the
output; the output type `Mat n nhid` shows the shape is (n, nhid) for every
nfeat. -/
theorem encoder_permutation_equivariant {n nfeat nhid : ℕ}
    (σ : Equiv.Perm (Fin n)) (e : Encoder nfeat nhid)
    (m1 : Fin n → Fin nfeat → Bool) (m2 : Fin n → Fin nhid → Bool)
    (x : Mat n nfeat) (adj : Mat n n) :
    e.forward false m1 m2 (permMat σ * x)
        (permMat σ * adj * (permMat σ).transpose) =
      permMat σ * e.forward false m1 m2 x adj := by
  have h : ∀ (X : Mat n nfeat) (A : Mat n n),
      e.forward false m1 m2 X A = e.gc2.forward (relu (e.gc1.forward X A)) A :=
    fun _ _ => rfl
  rw [h, h, gc_forward_permMat, relu_permMat, gc_forward_permMat]

/-- C8: `reset_parameters` draws every weight entry and every bias entry as
its own uniform sample from [-stdv, stdv] where `stdv = 1 / sqrt(out_features)`
(out_features = `weight.size(1)`); consequently, whenever the framework's unit
samples lie in [0, 1], every initialized parameter entry lies within
±1/sqrt(out_features). -/
theorem reset_parameters_uniform_bounds (f g : ℕ)
    (u : Fin f → Fin g → ℝ) (v : Fin g → ℝ)
    (hu : ∀ i j, u i j ∈ Set.Icc (0 : ℝ) 1)
    (hv : ∀ j, v j ∈ Set.Icc (0 : ℝ) 1) :
    gcStdv g = 1 / Real.sqrt g ∧
    (∀ i j, GraphConvolution.resetWeight f g u i j =
      uniformSample (-(gcStdv g)) (gcStdv g) (u i j)) ∧
    (∀ i j, |GraphConvolution.resetWeight f g u i j| ≤ gcStdv g) ∧
    (∀ j, GraphConvolution.resetBias g v j =
      uniformSample (-(gcStdv g)) (gcStdv g) (v j)) ∧
    (∀ j, |GraphConvolution.resetBias g v j| ≤ gcStdv g) := by
  have hs : 0 ≤ gcStdv g := div_nonneg zero_le_one (Real.sqrt_nonneg _)
  refine ⟨rfl, fun i j => rfl, fun i j => ?_, fun j => rfl, fun j => ?_⟩
  · obtain ⟨h0, h1⟩ := hu i j
    have he : GraphConvolution.resetWeight f g u i j =
        -(gcStdv g) + (gcStdv g - -(gcStdv g)) * u i j := rfl
    rw [he, abs_le]
    constructor <;> nlinarith
  · obtain ⟨h0, h1⟩ := hv j
    have he : GraphConvolution.resetBias g v j =
        -(gcStdv g) + (gcStdv g - -(gcStdv g)) * v j := rfl
    rw [he, abs_le]
    constructor <;> nlinarith

/-- Witness for C8 at f = g = 1 with unit samples 1/2: the hypotheses hold and
the initialized weight entry is bounded by the stdv. -/
theorem reset_parameters_uniform_bounds_witness :
    ((1 : ℝ) / 2 ∈ Set.Icc (0 : ℝ) 1) ∧
    |GraphConvolution.resetWeight 1 1 (fun _ _ => 1 / 2) 0 0| ≤ gcStdv 1 :=
  ⟨by constructor <;> norm_num,
   (reset_parameters_uniform_bounds 1 1 (fun _ _ => 1 / 2) (fun _ => 1 / 2)
     (fun _ _ => by constructor <;> norm_num)
     (fun _ => by constructor <;> norm_num)).2.2.1 0 0⟩

/-- C10: `Discriminator` construction with nin = 1 is not rejected; the hidden
width is `discHidden 1 = 0`, and in inference mode the forward pass maps every
input of shape (n, 1) to the row-broadcast of lr2's bias vector — the output
is independent of the input. -/
theorem discriminator_nin_one_constant {n nout : ℕ} (d : Discriminator 1 nout)
    (l1 : Linear 1 (discHidden 1)) (l2 : Linear (discHidden 1) nout) (p : ℚ)
    (m1 : Fin n → Fin 1 → Bool) (m2 : Fin n → Fin (discHidden 1) → Bool)
    (x : Mat n 1) :
    discHidden 1 = 0 ∧
    Discriminator.init l1 l2 p = .ok { lr1 := l1, lr2 := l2, dropout := p } ∧
    d.forward false m1 m2 x = bcast d.lr2.bias := by
  refine ⟨rfl, rfl, ?_⟩
  have h : d.forward false m1 m2 x =
      d.lr2.forward (relu (d.lr1.forward (relu x))) := rfl
  rw [h]
  unfold Linear.forward
  ext i j
  rw [Matrix.add_apply, Matrix.mul_apply]
  rw [Finset.sum_eq_zero fun k _ => absurd k.isLt (by simp [discHidden]),
    zero_add]
